import Mathlib

/-!
A shallow embedding of the MuckRock FOIA request/communication workflow,
covering the mailgun/phaxio webhook views (`muckrock/mailgun/views.py`),
the communication address model (`muckrock/communication/models.py`) and
the FOIA request and communication models
(`muckrock/foia/models/request.py`, `muckrock/foia/models/communication.py`).

Conventions used throughout:
* Django model rows become Lean structures; a table is a `List` of rows and
  the whole database is the `DB` structure.  `objects.create` appends a row
  using the `nextPk` counter.
* datetimes are `Int` seconds since the epoch, dates are `Int` days since
  the epoch; `datetime.date()` is `dateOfDatetime` (floor division by 86400).
* an HTTP POST body is an association list of string fields (`Post`).
* Python exceptions that escape the code under consideration are modelled by
  an `Option` result (`none` = an uncaught exception, i.e. a 500 response).
* external primitives that the repository calls but does not define
  (HMAC digests, `email.utils` parsing, `slugify`, code living in modules
  that are not part of this snapshot) are passed in as parameters
  (`PyLib`, `Ext`, explicit hash-function arguments), so every theorem holds
  for all implementations of those primitives.
-/

/-- An HTTP response as produced by the views: `HttpResponse(body)` (status
200) or `HttpResponseForbidden()` (status 403). -/
inductive HttpResponse where
  | resp (body : String)
  | forbidden
deriving DecidableEq, Repr

/-- A POSTed form: association list from field name to field value. -/
abbrev Post := List (String × String)

/-- `post.get(key)`: first binding of `key`, if any. -/
def postGet (post : Post) (key : String) : Option String :=
  (post.find? (fun kv => kv.1 = key)).map (fun kv => kv.2)

/-- `post.get(key, default)`. -/
def postGetD (post : Post) (key : String) (dflt : String) : String :=
  (postGet post key).getD dflt

/-- Python truthiness of an optional string (`None` and `''` are falsy). -/
def truthyOptStr (s : Option String) : Bool :=
  match s with
  | none => false
  | some s => s ≠ ""

/-- Python `a or b` for optional strings (used for the Message-ID lookup
chain in `route_mailgun`). -/
def pyOrOptStr (a b : Option String) : Option String :=
  if truthyOptStr a then a else b

/-- Python `a or b` for strings (`''` is falsy). -/
def pyOrStr (a b : String) : String :=
  if a ≠ "" then a else b

/-- `datetime.date()` on a datetime measured in seconds: the day number. -/
def dateOfDatetime (t : Int) : Int := Int.fdiv t 86400

/-- Decimal digits to a number, `none` unless the list is a non-empty string
of digits. -/
def digitsToNat (cs : List Char) : Option Nat :=
  if cs ≠ [] ∧ cs.all Char.isDigit then
    some (cs.foldl (fun a c => 10 * a + (c.toNat - 48)) 0)
  else
    none

/-- Python `int(s)` on the strings that occur here: an optional minus sign
followed by decimal digits; `none` models the `ValueError` on anything
else. -/
def pyInt (s : String) : Option Int :=
  match s.data with
  | '-' :: rest => (digitsToNat rest).map (fun n => -(n : Int))
  | cs => (digitsToNat cs).map (fun n => (n : Int))

/-- The integer-coercion Django applies to a string used as a `pk` lookup
value (a `ValueError` on a non-numeric string is modelled by `none`). -/
def pyPk (s : String) : Option Nat :=
  digitsToNat s.data

/-- `str.lower()` (ASCII case folding, character by character). -/
def lowerStr (s : String) : String := String.mk (s.data.map Char.toLower)

/-- `str.endswith(suffix)`. -/
def strEndsWith (s suffix : String) : Bool := suffix.data.isSuffixOf s.data

/-- `str.strip()`: drop whitespace from both ends. -/
def pyStrip (s : String) : String :=
  String.mk (((s.data.dropWhile Char.isWhitespace).reverse.dropWhile
    Char.isWhitespace).reverse)

/-- Split at the last occurrence of `c`: `some (before, after)`, or `none`
when `c` does not occur (in which case `str.rsplit(c, 1)` yields a single
piece). -/
def rsplitLast (c : Char) : List Char → Option (List Char × List Char)
  | [] => none
  | x :: xs =>
    match rsplitLast c xs with
    | some (b, a) => some (x :: b, a)
    | none => if x = c then some ([], xs) else none

/-- Uploaded files attached to a request (only their names matter to the
properties verified here; file contents are never inspected). -/
abbrev Files := List String

/-- A row of `communication.EmailAddress`. -/
structure EmailAddrRec where
  pk : Nat
  email : String
  name : String
deriving DecidableEq, Repr

/-- The jurisdiction data consulted by the follow-up logic:
`jurisdiction.get_days()` and `jurisdiction.level`. -/
structure JurRec where
  days : Option Int
  level : String
deriving DecidableEq, Repr

/-- A row of `foia.FOIARequest` (the fields the verified code touches). -/
structure FoiaRec where
  pk : Nat
  title : String
  slug : String
  status : String
  mailId : String
  blockIncoming : Bool
  embargo : Bool
  dateEmbargo : Option Int
  dateProcessing : Option Int
  dateUpdated : Option Int
  dateDue : Option Int
  dateFollowup : Option Int
  dateEstimate : Option Int
  agencyId : Option Nat
  emailId : Option Nat
  ccEmailPks : List Nat
  jurisdiction : Option JurRec
deriving DecidableEq, Repr

/-- A row of `foia.FOIACommunication`.  The body is kept as a list of
characters so that the control-character stripping in `save` is explicit. -/
structure FOIACommRec where
  pk : Nat
  foia : Option Nat
  fromUser : Option Nat
  toUser : Option Nat
  subject : String
  date : Int
  response : Bool
  thanks : Bool
  communication : List Char
  likelyFoia : Option Nat
deriving DecidableEq, Repr

/-- A row of `communication.EmailCommunication`. -/
structure EmailCommRec where
  pk : Nat
  communication : Nat
  sentDatetime : Int
  confirmedDatetime : Option Int
  fromEmail : Option Nat
  toEmails : List Nat
  ccEmails : List Nat
deriving DecidableEq, Repr

/-- A row of `communication.FaxCommunication`. -/
structure FaxCommRec where
  pk : Nat
  communication : Nat
  sentDatetime : Int
  confirmedDatetime : Option Int
  toNumber : Option Nat
  faxId : String
deriving DecidableEq, Repr

/-- A row of `foia.RawEmail`.  The snapshot is mid-refactor: the class in
`foia/models/communication.py` has a `communication` one-to-one field while
`mailgun/views.py` and `EmailCommunication.set_raw_email` create rows keyed
by `email=`; the row here carries both keys. -/
structure RawEmailRec where
  pk : Nat
  email : Option Nat
  communication : Option Nat
  rawEmail : String
deriving DecidableEq, Repr

/-- A row of `task.OrphanTask` (fields as used by the call sites in
`mailgun/views.py`; the model module is not part of this snapshot). -/
structure OrphanTaskRec where
  pk : Nat
  reason : String
  communication : Nat
  address : String
deriving DecidableEq, Repr

/-- A row of `agency.Agency` (only the name is consulted here). -/
structure AgencyRec where
  pk : Nat
  name : String
deriving DecidableEq, Repr

/-- A row of `communication.PhoneNumber`. -/
structure PhoneRec where
  pk : Nat
  number : String
  ptype : String
deriving DecidableEq, Repr

/-- A row of `communication.FaxError`. -/
structure FaxErrorRec where
  pk : Nat
  fax : Nat
  datetime : Int
  recipient : Nat
  errorType : String
  errorCode : String
  errorId : Int
deriving DecidableEq, Repr

/-- The ORM-persisted state touched by the verified code. -/
structure DB where
  foias : List FoiaRec
  comms : List FOIACommRec
  emailComms : List EmailCommRec
  faxComms : List FaxCommRec
  rawEmails : List RawEmailRec
  orphanTasks : List OrphanTaskRec
  emailAddresses : List EmailAddrRec
  agencies : List AgencyRec
  agencyEmails : List (Nat × Nat)
  whitelistDomains : List String
  phoneNumbers : List PhoneRec
  faxErrors : List FaxErrorRec
  nextPk : Nat
deriving DecidableEq, Repr

/-- `Model.objects.filter(pk=k).first()` on each table. -/
def findFoia (db : DB) (pk : Nat) : Option FoiaRec :=
  db.foias.find? (fun f => f.pk = pk)

def findComm (db : DB) (pk : Nat) : Option FOIACommRec :=
  db.comms.find? (fun c => c.pk = pk)

def findEmailComm (db : DB) (pk : Nat) : Option EmailCommRec :=
  db.emailComms.find? (fun e => e.pk = pk)

def findFaxComm (db : DB) (pk : Nat) : Option FaxCommRec :=
  db.faxComms.find? (fun f => f.pk = pk)

def findEmailAddr (db : DB) (pk : Nat) : Option EmailAddrRec :=
  db.emailAddresses.find? (fun e => e.pk = pk)

def findAgency (db : DB) (pk : Nat) : Option AgencyRec :=
  db.agencies.find? (fun a => a.pk = pk)

/-- `_verify(post)`: check the HMAC-SHA256 signature over
`'%s%s' % (timestamp, token)` under `settings.MAILGUN_ACCESS_KEY` and the
freshness window `int(timestamp) + 300 > time.time()`.

`hmacSha256 key msg` is the hex digest primitive (`hmac.new(...).hexdigest()`
is external to this repository and is passed in as a parameter).  The result
is `none` when `int(timestamp)` raises `ValueError` (only reachable when the
signature comparison already succeeded, since Python's `and` short-circuits). -/
def pyVerify (hmacSha256 : String → String → String) (key : String)
    (now : Int) (post : Post) : Option Bool :=
  let token := postGetD post "token" ""
  let timestamp := postGetD post "timestamp" ""
  let signature := postGetD post "signature" ""
  let signature' := hmacSha256 key (timestamp ++ token)
  if signature = signature' then
    match pyInt timestamp with
    | some t => some (decide (t + 300 > now))
    | none => none
  else
    some false

/-- The `@mailgun_verify` decorator: run the wrapped view only when
`_verify(request.POST)` holds, otherwise return `HttpResponseForbidden()`.
The state type `σ` is whatever state the wrapped view consumes. -/
def mailgunVerify {σ : Type} (handler : Post → σ → Option (HttpResponse × σ))
    (hmacSha256 : String → String → String) (key : String) (now : Int)
    (post : Post) (st : σ) : Option (HttpResponse × σ) :=
  match pyVerify hmacSha256 key now post with
  | none => none
  | some true => handler post st
  | some false => some (.forbidden, st)

/-- `comm.emails.last()`: the related `EmailCommunication` rows of a
`FOIACommunication`; with no ordering declared on the model, Django's
`.last()` falls back to primary-key order, so this is the row with the
largest pk. -/
def emailsLast (db : DB) (commPk : Nat) : Option EmailCommRec :=
  (db.emailComms.filter (fun e => e.communication = commPk)).foldl
    (fun acc e =>
      match acc with
      | none => some e
      | some a => if a.pk ≤ e.pk then some e else some a)
    none

/-- The communication-lookup part of `get_common_webhook_params`: resolve the
`EmailCommunication` from the `email_id` POST field, falling back to the last
email of the `FOIACommunication` named by `comm_id`.  The outer `Option` is
exception propagation: a non-numeric id raises `ValueError` inside
`filter(pk=...)`, and when `comm_id` names no communication,
`comm.emails.last()` is an attribute access on `None`. -/
def resolveEmailComm (post : Post) (db : DB) : Option (Option EmailCommRec) := do
  let commId := postGet post "comm_id"
  let emailId := postGet post "email_id"
  let ec0 : Option EmailCommRec ←
    if truthyOptStr emailId then
      match pyPk ((emailId).getD "") with
      | some pk => pure (findEmailComm db pk)
      | none => none
    else
      pure none
  if ec0.isNone ∧ truthyOptStr commId then
    match pyPk ((commId).getD "") with
    | none => none
    | some pk =>
      match findComm db pk with
      | none => none
      | some c => pure (emailsLast db c.pk)
  else
    pure ec0

/-- The `@get_common_webhook_params` decorator: read `comm_id`, `email_id`
and the mandatory `timestamp` field (`request.POST['timestamp']` raises
`KeyError` when absent and `int(...)` raises `ValueError` on a non-numeric
value), resolve the email communication, run the wrapped handler when one
was found (otherwise only log a warning), and answer `HttpResponse('OK')`
either way.  `datetime.fromtimestamp(int(timestamp))` is the integer number
of seconds itself in this embedding. -/
def getCommonWebhookParams (handler : Post → EmailCommRec → Int → DB → DB)
    (post : Post) (db : DB) : Option (HttpResponse × DB) := do
  let tsStr ← postGet post "timestamp"
  let ts ← pyInt tsStr
  let ec? ← resolveEmailComm post db
  match ec? with
  | none => pure (.resp "OK", db)
  | some ec => pure (.resp "OK", handler post ec ts db)

/-- `email_comm.save()` after mutating a row: replace the row with the same
pk. -/
def updateEmailComm (db : DB) (ec : EmailCommRec) : DB :=
  { db with emailComms := db.emailComms.map (fun e => if e.pk = ec.pk then ec else e) }

/-- The body of the `delivered` webhook view: set `confirmed_datetime` to the
webhook timestamp and save. -/
def deliveredHandler (_post : Post) (ec : EmailCommRec) (ts : Int) (db : DB) : DB :=
  updateEmailComm db { ec with confirmedDatetime := some ts }

/-- The full `delivered` view:
`@mailgun_verify @csrf_exempt @get_common_webhook_params def delivered`. -/
def deliveredView (hmacSha256 : String → String → String) (key : String)
    (now : Int) (post : Post) (db : DB) : Option (HttpResponse × DB) :=
  mailgunVerify (getCommonWebhookParams deliveredHandler) hmacSha256 key now post db

/-- A one-row database used to witness the webhook theorems. -/
def dbC3 : DB :=
  { foias := [], comms := [],
    emailComms := [{ pk := 1, communication := 1, sentDatetime := 0,
                     confirmedDatetime := none, fromEmail := none,
                     toEmails := [], ccEmails := [] }],
    faxComms := [], rawEmails := [], orphanTasks := [], emailAddresses := [],
    agencies := [], agencyEmails := [], whitelistDomains := [],
    phoneNumbers := [], faxErrors := [], nextPk := 2 }

/-- Library primitives the views call but the repository does not define:
`email.utils.parseaddr` / `getaddresses`, Django's `validate_email`
(modelled as a boolean: `false` = the validator raises `ValidationError`)
and `slugify`.  Every theorem below holds for all implementations. -/
structure PyLib where
  parseaddr : String → String × String
  getaddresses : List String → List (String × String)
  validateEmail : String → Bool
  slugify : String → String

/-- Repository code called from `mailgun/views.py` whose defining modules are
not part of this snapshot (`Agency.get_user`,
`FOIACommunication.process_attachments`); they are parameters, so the
theorems hold for all implementations. -/
structure ExtCode where
  agencyGetUser : Nat → DB → Nat × DB
  processAttachments : Nat → Files → DB → DB

/-- `EmailAddress.domain`: the part after the last `'@'`
(`email.rsplit('@', 1)[1]`), or `''` when there is no `'@'`. -/
def emailDomain (s : String) : String :=
  match rsplitLast '@' s.data with
  | some (_, a) => String.mk a
  | none => ""

/-- `EmailAddress.__unicode__`: `'"name" <email>'` when a name is set, else
the bare address (Django uses this string form when an `EmailAddress` object
is used as a value for a character field lookup). -/
def pyStrEmailAddress (e : EmailAddrRec) : String :=
  if e.name ≠ "" then "\"" ++ e.name ++ "\" <" ++ e.email ++ ">" else e.email

/-- The state codes of `localflavor.us.us_states.STATE_CHOICES`, in order
(50 states, the armed-forces codes, DC and the territories). -/
def stateChoicesCodes : List String :=
  ["AL", "AK", "AS", "AZ", "AR", "AA", "AE", "AP", "CA", "CO", "CT", "DE",
   "DC", "FL", "GA", "GU", "HI", "ID", "IL", "IN", "IA", "KS", "KY", "LA",
   "ME", "MD", "MA", "MI", "MN", "MS", "MO", "MT", "NE", "NV", "NH", "NJ",
   "NM", "NY", "NC", "ND", "MP", "OH", "OK", "OR", "PA", "PR", "RI", "SC",
   "SD", "TN", "TX", "UT", "VT", "VI", "VA", "WA", "WV", "WI", "WY"]

/-- The `allowed_tlds` list built at the top of `EmailAddress.allowed`:
`'.%s.us'` for every state code except AS, DC, GU, MP, PR, VI, plus `.gov`
and `.mil`. -/
def allowedTlds : List String :=
  (stateChoicesCodes.filter
      (fun a => a ∉ ["AS", "DC", "GU", "MP", "PR", "VI"])).map
    (fun a => "." ++ lowerStr a ++ ".us") ++ [".gov", ".mil"]

/-- `EmailAddress.allowed(foia=None)`: may this address post to this FOIA
request?  The six source checks in order: same domain as the FOIA's email,
known email of the FOIA's agency (via `AgencyEmail`), member of the FOIA's
cc list (the source filters the cc queryset with `email=self`, comparing the
`email` column against the string form of `self`), a government TLD, known
for any agency when no FOIA is given, and the whitelisted-domain check
(`domain__iexact`). -/
def EmailAddrRec.allowed (self : EmailAddrRec) (db : DB) (foia : Option FoiaRec) : Bool :=
  if (match foia with
      | some f =>
        match f.emailId.bind (findEmailAddr db) with
        | some fe => decide (emailDomain self.email = emailDomain fe.email)
        | none => false
      | none => false) then true
  else if (match foia with
      | some f =>
        match f.agencyId with
        | some aid => db.agencyEmails.any (fun l => l.1 = aid ∧ l.2 = self.pk)
        | none => false
      | none => false) then true
  else if (match foia with
      | some f => db.emailAddresses.any
          (fun e => e.pk ∈ f.ccEmailPks ∧ e.email = pyStrEmailAddress self)
      | none => false) then true
  else if allowedTlds.any (fun tld => strEndsWith self.email tld) then true
  else if foia.isNone ∧ db.agencyEmails.any (fun l => l.2 = self.pk) then true
  else if db.whitelistDomains.any
      (fun d => lowerStr d = lowerStr (emailDomain self.email)) then true
  else false

/-- `EmailAddressQuerySet._normalize_email`: the username keeps its case,
the domain is lowered (`validate_email` has already guaranteed an `'@'`). -/
def normalizeEmail (email : String) : String :=
  match rsplitLast '@' email.data with
  | some (u, d) => String.mk u ++ "@" ++ lowerStr (String.mk d)
  | none => email

/-- `update_or_create(email=email, defaults={'name': name})` on the
`EmailAddress` table. -/
def updateOrCreateEmail (db : DB) (email name : String) : EmailAddrRec × DB :=
  match db.emailAddresses.find? (fun e => e.email = email) with
  | some e =>
    let e' := { e with name := name }
    (e', { db with emailAddresses :=
        db.emailAddresses.map (fun x => if x.pk = e.pk then e' else x) })
  | none =>
    let e : EmailAddrRec := { pk := db.nextPk, email := email, name := name }
    (e, { db with
            emailAddresses := db.emailAddresses ++ [e],
            nextPk := db.nextPk + 1 })

/-- `EmailAddressQuerySet.fetch(address)`: parse the header, `None` when the
validator rejects the address, otherwise update-or-create. -/
def fetch (lib : PyLib) (db : DB) (address : String) : Option EmailAddrRec × DB :=
  let (name, email) := lib.parseaddr address
  if lib.validateEmail email then
    let (e, db') := updateOrCreateEmail db (normalizeEmail email) name
    (some e, db')
  else
    (none, db)

/-- The loop of `EmailAddressQuerySet.fetch_many` (with the default
`ignore_errors=True`, invalid addresses are skipped). -/
def fetchManyLoop (valid : String → Bool) :
    List (String × String) → DB → List EmailAddrRec → List EmailAddrRec × DB
  | [], db, acc => (acc, db)
  | (name, email) :: rest, db, acc =>
    if valid email then
      let (e, db') := updateOrCreateEmail db (normalizeEmail email) name
      fetchManyLoop valid rest db' (acc ++ [e])
    else
      fetchManyLoop valid rest db acc

/-- `EmailAddressQuerySet.fetch_many(header)` as called from
`_parse_email_headers` (a single header string). -/
def fetchMany (lib : PyLib) (db : DB) (address : String) : List EmailAddrRec × DB :=
  fetchManyLoop lib.validateEmail (lib.getaddresses [address]) db []

/-- `_parse_email_headers(post)` from `mailgun/views.py`: fetch the From
address and the To/Cc address lists (`post.get('To') or post.get('to', '')`
and the Cc analogue), threading the address-table updates. -/
def parseEmailHeaders (lib : PyLib) (db : DB) (post : Post) :
    Option EmailAddrRec × List EmailAddrRec × List EmailAddrRec × DB :=
  let from_ := postGetD post "From" ""
  let to_ := if truthyOptStr (postGet post "To") then (postGet post "To").getD ""
             else postGetD post "to" ""
  let cc_ := if truthyOptStr (postGet post "Cc") then (postGet post "Cc").getD ""
             else postGetD post "cc" ""
  let r1 := fetch lib db from_
  let r2 := fetchMany lib r1.2 to_
  let r3 := fetchMany lib r2.2 cc_
  (r1.1, r2.1, r3.1, r3.2)

/-- `_get_mail_body(post)`: the stripped text unless it looks like parsing
failed, else the full plain body (`post.get('body-plain')` can be `None`,
rendered here as `''`). -/
def getMailBody (post : Post) : String :=
  let strippedText := postGetD post "stripped-text" ""
  if strippedText ∈ ["", "\n",
      "--- Please respond above this line ---",
      "--- Please respond above this line ---\n"] then
    postGetD post "body-plain" ""
  else
    strippedText ++ "\n" ++ postGetD post "stripped-signature" ""

/-- `END_STATUS` from `foia/models/request.py`. -/
def endStatus : List String := ["rejected", "no_docs", "done", "partial", "abandoned"]

/-- `FOIARequest.save`: normalize slug and title, maintain the embargo
expiration (30 days out for an embargoed request in an end status when no
date is set, cleared while the request is still open), and stamp
`date_processing` on first submission.  The reversion comment handling has
no model-state effect. -/
def FoiaRec.save (lib : PyLib) (today : Int) (f : FoiaRec) : FoiaRec :=
  let f := { f with slug := lib.slugify f.slug, title := pyStrip f.title }
  let f :=
    if f.embargo then
      if f.status ∈ endStatus then
        let defaultDate := today + 30
        { f with dateEmbargo :=
            match f.dateEmbargo with
            | none => some defaultDate
            | some d => some d }
      else
        { f with dateEmbargo := none }
    else f
  if f.status = "submitted" ∧ f.dateProcessing = none then
    { f with dateProcessing := some today }
  else f

/-- `foia.save()` persisted into the table. -/
def storeFoia (db : DB) (f : FoiaRec) : DB :=
  { db with foias := db.foias.map (fun x => if x.pk = f.pk then f else x) }

/-- The keys of `dict.fromkeys(range(0, 9) + range(11, 13) + range(14, 32))`:
the code points deleted by `unicode(...).translate(remove_control)`. -/
def removeControlKeys : List Nat := List.range 9 ++ [11, 12] ++ List.range' 14 18

/-- `unicode(communication).translate(remove_control)`: delete the control
characters listed in `removeControlKeys`. -/
def translateRemoveControl (cs : List Char) : List Char :=
  cs.filter (fun ch => !(removeControlKeys.contains ch.toNat))

/-- The first index at which `needle` occurs as a contiguous sublist
(Python's `str.index`). -/
def indexOfSublist (needle : List Char) : List Char → Option Nat
  | [] => if needle = [] then some 0 else none
  | c :: rest =>
    if needle.isPrefixOf (c :: rest) then some 0
    else (indexOfSublist needle rest).map (fun i => i + 1)

/-- `until_string(string)` from `_presave_special_handling`: cut the
communication off right before the first occurrence of `string`, when
present. -/
def untilString (body sub : List Char) : List Char :=
  match indexOfSublist sub body with
  | some i => body.take i
  | none => body

/-- `test_agency_name(name)`: the communication belongs to a FOIA whose
agency has the given name. -/
def testAgencyName (db : DB) (c : FOIACommRec) (name : String) : Bool :=
  match c.foia.bind (findFoia db) with
  | some f =>
    match f.agencyId.bind (findAgency db) with
    | some a => a.name = name
    | none => false
  | none => false

/-- One entry of the `special_cases` loop in `_presave_special_handling`:
when the test holds, run the `until_string` modification. -/
def presaveCase (db : DB) (name : String) (sub : List Char)
    (c : FOIACommRec) : FOIACommRec :=
  if testAgencyName db c name then
    { c with communication := untilString c.communication sub }
  else c

/-- `_presave_special_handling`: BoP communications are cut at `'>>>'`,
Phoenix Police communications at 32 underscores (the special cases are
applied in order). -/
def presaveSpecialHandling (db : DB) (c : FOIACommRec) : FOIACommRec :=
  presaveCase db "Phoenix Police Department" (List.replicate 32 '_')
    (presaveCase db "Bureau of Prisons" (">>>".data) c)

/-- The communication body as stored by `FOIACommunication.save`: control
characters removed, truncated to 150000 characters, then the special-agency
handling. -/
def savedBody (db : DB) (c : FOIACommRec) : List Char :=
  (presaveSpecialHandling db
    { c with communication := (translateRemoveControl c.communication).take 150000 }).communication

/-- `super(FOIACommunication, self).save()` persisted into the table
(replace the row with the same pk, or insert it). -/
def storeComm (db : DB) (c : FOIACommRec) : DB :=
  if db.comms.any (fun x => x.pk = c.pk) then
    { db with comms := db.comms.map (fun x => if x.pk = c.pk then c else x) }
  else
    { db with comms := db.comms ++ [c] }

/-- `FOIACommunication.save`: clean the body, run the special handling,
push `foia.date_updated` forward (saving the request) when this is the
latest communication, then persist.  Returns the saved row (the Python
object keeps its mutated fields) alongside the database. -/
def commSave (lib : PyLib) (now : Int) (db : DB) (c0 : FOIACommRec) :
    FOIACommRec × DB :=
  let c := { c0 with communication := savedBody db c0 }
  let db :=
    match c.foia.bind (findFoia db) with
    | some f =>
      if (match f.dateUpdated with
          | none => true
          | some du => decide (dateOfDatetime c.date > du)) then
        storeFoia db (FoiaRec.save lib (dateOfDatetime now)
          { f with dateUpdated := some (dateOfDatetime c.date) })
      else db
    | none => db
  (c, storeComm db c)

/-- `FOIACommunication.objects.create(...)`: allocate a pk and run the
custom `save`.  (`nextPk` is a single fresh-pk counter serving every table
of this embedding.) -/
def createFoiaComm (lib : PyLib) (now : Int) (db : DB)
    (mk : Nat → FOIACommRec) : FOIACommRec × DB :=
  let c0 := mk db.nextPk
  commSave lib now { db with nextPk := db.nextPk + 1 } c0

/-- `EmailCommunication.objects.create(...)`. -/
def createEmailComm (db : DB) (mk : Nat → EmailCommRec) : EmailCommRec × DB :=
  let e := mk db.nextPk
  (e, { db with
          emailComms := db.emailComms ++ [e],
          nextPk := db.nextPk + 1 })

/-- `RawEmail.objects.create(...)`. -/
def createRawEmail (db : DB) (mk : Nat → RawEmailRec) : RawEmailRec × DB :=
  let r := mk db.nextPk
  (r, { db with
          rawEmails := db.rawEmails ++ [r],
          nextPk := db.nextPk + 1 })

/-- `OrphanTask.objects.create(reason=..., communication=..., address=...)`. -/
def createOrphanTask (db : DB) (reason : String) (commPk : Nat)
    (address : String) : DB :=
  { db with
      orphanTasks := db.orphanTasks ++
        [{ pk := db.nextPk, reason := reason, communication := commPk,
           address := address }],
      nextPk := db.nextPk + 1 }

/-- `self.communications`: the communications related to a request. -/
def commsOf (db : DB) (foiaPk : Nat) : List FOIACommRec :=
  db.comms.filter (fun c => c.foia = some foiaPk)

/-- `FOIARequest.has_ack`:
`self.communications.filter(response=True).exists()`. -/
def FoiaRec.hasAck (f : FoiaRec) (db : DB) : Bool :=
  (commsOf db f.pk).any (fun c => c.response)

/-- `FOIARequest._sent_status(appeal, thanks)`. -/
def sentStatus (db : DB) (f : FoiaRec) (appeal thanks : Bool) : String :=
  if thanks then f.status
  else if appeal then "appealing"
  else if f.hasAck db then "processed"
  else "ack"

/-- `FOIARequest.last_comm`: `self.communications.last()` under the model's
`ordering = ['date']` — the communication with the maximal date (`none` when
the request has none; on equal dates Django's SQL ordering is unspecified
and this embedding keeps the later row). -/
def lastComm (db : DB) (foiaPk : Nat) : Option FOIACommRec :=
  (commsOf db foiaPk).foldl
    (fun acc c =>
      match acc with
      | none => some c
      | some a => if a.date ≤ c.date then some c else some a)
    none

/-- `self.jurisdiction and self.jurisdiction.level == 'f'`. -/
def jurisdictionIsFederal (f : FoiaRec) : Bool :=
  match f.jurisdiction with
  | some j => j.level = "f"
  | none => false

/-- `FOIARequest._followup_days`: the acknowledgment period required by law
while still awaiting acknowledgment, else the days until the estimated
completion date when that is in the future, else 30 days for federal
jurisdictions and 15 otherwise. -/
def followupDays (f : FoiaRec) (today : Int) : Int :=
  match (if f.status = "ack" ∧ f.jurisdiction.isSome then
          f.jurisdiction.bind JurRec.days
         else none) with
  | some d => d
  | none =>
    match f.dateEstimate with
    | some est =>
      if today < est then est - today
      else if jurisdictionIsFederal f then 30 else 15
    | none =>
      if jurisdictionIsFederal f then 30 else 15

/-- `FOIARequest._update_followup_date`: propose the last communication's
date plus `_followup_days`, never earlier than the due date, and move
`date_followup` only forward.  `last_comm()` is `communications.last()`,
which returns `None` for a request without communications; `None.date` then
raises `AttributeError` (the `except IndexError` clause does not catch it),
modelled as `none`. -/
def updateFollowupDate (db : DB) (f : FoiaRec) (today : Int) : Option FoiaRec :=
  match lastComm db f.pk with
  | none => none
  | some c =>
    let newDate := dateOfDatetime c.date + followupDays f today
    let newDate :=
      match f.dateDue with
      | some due => if due > newDate then due else newDate
      | none => newDate
    some (match f.dateFollowup with
      | none => { f with dateFollowup := some newDate }
      | some old =>
        if old < newDate then { f with dateFollowup := some newDate } else f)

/-- A request used to witness the follow-up and embargo theorems. -/
def foiaC6 : FoiaRec :=
  { pk := 1, title := "", slug := "", status := "processed", mailId := "1-200",
    blockIncoming := false, embargo := false, dateEmbargo := none,
    dateProcessing := none, dateUpdated := none, dateDue := none,
    dateFollowup := none, dateEstimate := none, agencyId := none,
    emailId := none, ccEmailPks := [], jurisdiction := none }

/-- A response communication on `foiaC6`, dated day 10. -/
def commC6 : FOIACommRec :=
  { pk := 2, foia := some 1, fromUser := none, toUser := none, subject := "",
    date := 864000, response := true, thanks := false, communication := [],
    likelyFoia := none }

def dbC6 : DB := { dbC3 with comms := [commC6] }

/-- `_make_orphan_comm(from_email, to_emails, cc_emails, subject, post,
files, foia)`: create an orphan `FOIACommunication` (a response with no
request attached, `likely_foia` pointing at the guessed request), its
`EmailCommunication` and a `RawEmail` of the message headers and plain body,
then process the attachments.  The sender becomes `from_user` when exactly
one agency owns the address. -/
def makeOrphanComm (lib : PyLib) (ext : ExtCode) (fromEmail : EmailAddrRec)
    (toEmails ccEmails : List EmailAddrRec) (subject : String) (post : Post)
    (files : Files) (foia : Option FoiaRec) (now : Int) (db : DB) :
    FOIACommRec × DB :=
  let agencies := (db.agencyEmails.filter (fun l => l.2 = fromEmail.pk)).map
    (fun l => l.1)
  let (fromUser, db) :=
    if agencies.length = 1 then
      let (u, db) := ext.agencyGetUser (agencies.headD 0) db
      (some u, db)
    else (none, db)
  let (comm, db) := createFoiaComm lib now db (fun pk =>
    { pk := pk, foia := none, fromUser := fromUser, toUser := none,
      subject := subject.take 255, date := now, response := true,
      thanks := false, communication := (getMailBody post).data,
      likelyFoia := foia.map (fun f => f.pk) })
  let (emailComm, db) := createEmailComm db (fun pk =>
    { pk := pk, communication := comm.pk, sentDatetime := now,
      confirmedDatetime := none, fromEmail := some fromEmail.pk,
      toEmails := toEmails.map (fun e => e.pk),
      ccEmails := ccEmails.map (fun e => e.pk) })
  let (_, db) := createRawEmail db (fun pk =>
    { pk := pk, email := some emailComm.pk, communication := none,
      rawEmail := postGetD post "message-headers" "" ++ "\n"
        ++ postGetD post "body-plain" "" })
  let db := ext.processAttachments comm.pk files db
  (comm, db)

/-- `post.get('Subject') or post.get('subject', '')`. -/
def postSubject (post : Post) : String :=
  if truthyOptStr (postGet post "Subject") then (postGet post "Subject").getD ""
  else postGetD post "subject" ""

/-- `_handle_request(request, mail_id)`.

The body of the `try:` block is faithful to the source, whose guard logic is
inconsistent with itself:

* `msg, reason` are assigned under `if not email_allowed:` and
  `if foia.block_incoming:`, but the warning branch is entered under
  `if email_allowed or foia.block_incoming:`;
* `logger.warning('%s: %s', msg, from_)` names `from_`, which is never bound
  in `_handle_request` (only inside `_parse_email_headers`), so evaluating
  the call raises `NameError` before any row is written — and when the
  sender is allowed and incoming mail is not blocked, `msg` is unbound too;
* the non-warning branch calls `FOIACommunication.objects.create(...,
  form_user=foia.agency.get_user(), ...)`: `foia.agency.get_user()` is
  evaluated first (an `AttributeError` on `None` when the request has no
  agency), and `form_user` is not a field of `FOIACommunication`, so the
  create raises `TypeError`; the statements after it (lines 240-265) are
  dead code.

Every exception above lands in the broad `except Exception` handler, which
forwards the mail (`_forward` only sends email, writing no rows) and
returns `HttpResponse('ERROR')`.  The `except FOIARequest.DoesNotExist`
handler builds an orphan communication; an exception raised inside it
(a non-numeric pk, a duplicated pk, or an unparsable From address) is not
caught by the sibling handler and escapes the view (`none`). -/
def handleRequest (lib : PyLib) (ext : ExtCode) (post : Post) (files : Files)
    (now : Int) (db0 : DB) (mailId : String) : Option (HttpResponse × DB) :=
  let (fromEmail?, toEmails, ccEmails, db) := parseEmailHeaders lib db0 post
  let subject := postSubject post
  match db.foias.filter (fun f => f.mailId = mailId) with
  | [foia] =>
    match fromEmail? with
    | none => some (.resp "ERROR", db)
    | some fromEmail =>
      let emailAllowed := fromEmail.allowed db (some foia)
      if emailAllowed || foia.blockIncoming then
        some (.resp "ERROR", db)
      else
        match foia.agencyId with
        | none => some (.resp "ERROR", db)
        | some aid =>
          let (_, db) := ext.agencyGetUser aid db
          some (.resp "ERROR", db)
  | [] =>
    match pyPk (String.mk (mailId.data.takeWhile (fun ch => ch ≠ '-'))) with
    | none => none
    | some pk =>
      match (match db.foias.filter (fun f => f.pk = pk) with
             | [f] => some (some f)
             | [] => some none
             | _ :: _ :: _ => none : Option (Option FoiaRec)) with
      | none => none
      | some foia2 =>
        match fromEmail? with
        | none => none
        | some fromEmail =>
          let (comm, db) := makeOrphanComm lib ext fromEmail toEmails ccEmails
            subject post files foia2 now db
          let db := createOrphanTask db "ia" comm.pk mailId
          some (.resp "WARNING", db)
  | _ :: _ :: _ =>
    some (.resp "ERROR", db)

/-- `_catch_all(request, address)`: an email to an unknown
`@requests.muckrock.com` address becomes an orphan communication when the
sender is allowed (`allowed()` with no FOIA); the view part answers
`HttpResponse('OK')` either way.  An unparsable From address makes
`from_email.allowed()` raise `AttributeError`, which nothing here catches. -/
def catchAll (lib : PyLib) (ext : ExtCode) (post : Post) (files : Files)
    (now : Int) (db0 : DB) (address : String) : Option (HttpResponse × DB) :=
  let (fromEmail?, toEmails, ccEmails, db) := parseEmailHeaders lib db0 post
  let subject := postSubject post
  match fromEmail? with
  | none => none
  | some fromEmail =>
    if fromEmail.allowed db none then
      let (comm, db) := makeOrphanComm lib ext fromEmail toEmails ccEmails
        subject post files none now db
      let db := createOrphanTask db "ia" comm.pk address
      some (.resp "OK", db)
    else
      some (.resp "OK", db)

/-- The Django cache as used by `route_mailgun`: keys with their expiry
times. -/
structure Cache where
  entries : List (String × Int)
deriving DecidableEq, Repr

/-- Is `key` present and unexpired at time `now`? -/
def cacheHasValid (c : Cache) (now : Int) (key : String) : Bool :=
  c.entries.any (fun e => e.1 = key ∧ now < e.2)

/-- `cache.add(key, 1, timeout)`: `False` when the key is already cached
(and unexpired), otherwise set it to expire `timeout` seconds from now and
return `True`. -/
def cacheAdd (c : Cache) (now : Int) (key : String) (timeout : Int) :
    Bool × Cache :=
  if cacheHasValid c now key then (false, c)
  else (true, { entries := (key, now + timeout) :: c.entries })

/-- The state consumed by `route_mailgun`: the cache plus the database. -/
structure WebState where
  cache : Cache
  db : DB
deriving DecidableEq, Repr

/-- Does this suffix match the regex tail `@requests.muckrock.com`?  The
dots in the pattern `(\d+-\d{3,10})@requests.muckrock.com` are unescaped,
so each matches any character, and the pattern is not anchored at the end. -/
def matchesRequestDomain : List Char → Bool
  | '@' :: 'r' :: 'e' :: 'q' :: 'u' :: 'e' :: 's' :: 't' :: 's' :: _ :: 'm'
      :: 'u' :: 'c' :: 'k' :: 'r' :: 'o' :: 'c' :: 'k' :: _ :: 'c' :: 'o'
      :: 'm' :: _ => true
  | _ => false

/-- `p_request_email.match(email)` for
`(\d+-\d{3,10})@requests.muckrock.com`, returning `group(1)`: one or more
digits, a dash, three to ten digits, then the domain tail.  (The `\d{3,10}`
quantifier is greedy and the next pattern character is not a digit, so a run
of more than ten digits cannot match.) -/
def matchRequestEmail (s : String) : Option String :=
  let cs := s.data
  let d1 := cs.takeWhile Char.isDigit
  let r1 := cs.dropWhile Char.isDigit
  if d1 = [] then none
  else
    match r1 with
    | '-' :: r2 =>
      let d2 := r2.takeWhile Char.isDigit
      let r3 := r2.dropWhile Char.isDigit
      if 3 ≤ d2.length ∧ d2.length ≤ 10 ∧ matchesRequestDomain r3 then
        some (String.mk (d1 ++ '-' :: d2))
      else none
    | _ => none

/-- One iteration of the `for _, email in name_emails:` loop of
`route_mailgun`: request addresses go to `_handle_request`, other
`@requests.muckrock.com` addresses to `_catch_all`. -/
def routeLoopStep (lib : PyLib) (ext : ExtCode) (files : Files) (now : Int)
    (post : Post) (db : DB) (ne : String × String) : Option DB :=
  match matchRequestEmail ne.2 with
  | some mailId => (handleRequest lib ext post files now db mailId).map
      (fun r => r.2)
  | none =>
    if strEndsWith ne.2 "@requests.muckrock.com" then
      (catchAll lib ext post files now db ne.2).map (fun r => r.2)
    else
      some db

/-- The body of `route_mailgun` (inside `mailgun_verify`): look the
Message-ID up in the cache and stop with `HttpResponse('OK')` when it was
already seen (cached for 300 seconds), otherwise parse the To and Cc headers
and dispatch every recipient, answering `HttpResponse('OK')`. -/
def routeMailgunInner (lib : PyLib) (ext : ExtCode) (files : Files)
    (now : Int) (post : Post) (st : WebState) :
    Option (HttpResponse × WebState) :=
  let messageId := pyOrOptStr (postGet post "Message-ID")
    (pyOrOptStr (postGet post "Message-Id") (postGet post "message-id"))
  -- `addResult.1` is `cache.add(message_id, 1, 300)` (taken as `True` when
  -- there is no Message-ID, so that processing continues), `addResult.2`
  -- the cache afterwards
  let addResult :=
    if truthyOptStr messageId then
      cacheAdd st.cache now (messageId.getD "") 300
    else
      (true, st.cache)
  if !addResult.1 then
    some (.resp "OK", { st with cache := addResult.2 })
  else
    let tos := pyOrStr (postGetD post "To" "") (postGetD post "to" "")
    let ccs := pyOrStr (postGetD post "Cc" "") (postGetD post "cc" "")
    let nameEmails := lib.getaddresses [lowerStr tos, lowerStr ccs]
    match nameEmails.foldlM (routeLoopStep lib ext files now post) st.db with
    | none => none
    | some db => some (.resp "OK", { cache := addResult.2, db := db })

/-- The full `route_mailgun` view: `@mailgun_verify @csrf_exempt`. -/
def routeMailgunView (lib : PyLib) (ext : ExtCode) (files : Files)
    (hmacSha256 : String → String → String) (key : String) (now : Int)
    (post : Post) (st : WebState) : Option (HttpResponse × WebState) :=
  mailgunVerify (routeMailgunInner lib ext files now) hmacSha256 key now post st

/-- One recipient entry of the parsed `fax` JSON payload. -/
structure FaxRecipient where
  number : String
  errorType : String
  errorCode : String
  errorId : Int
deriving DecidableEq, Repr

/-- The parsed `json.loads(request.POST['fax'])` payload: the `tags` dict
(`fax_id`, `comm_id`), the optional `completed_at` timestamp and the
`recipients` list. -/
structure FaxInfo where
  tagsFaxId : Option String
  tagsCommId : Option String
  completedAt : Option Int
  recipients : List FaxRecipient
deriving DecidableEq, Repr

/-- `comm.faxes.last()`: the related fax with the largest pk (no ordering is
declared on `FaxCommunication`, so Django falls back to primary-key
order). -/
def faxesLast (db : DB) (commPk : Nat) : Option FaxCommRec :=
  (db.faxComms.filter (fun f => f.communication = commPk)).foldl
    (fun acc f =>
      match acc with
      | none => some f
      | some a => if a.pk ≤ f.pk then some f else some a)
    none

/-- `fax_comm.save()` after mutating a row. -/
def updateFaxComm (db : DB) (fc : FaxCommRec) : DB :=
  { db with faxComms := db.faxComms.map (fun f => if f.pk = fc.pk then fc else f) }

/-- `phaxio_callback(request)`.  `validSignature` is the result of
`_validate_phaxio` (an HMAC-SHA1 digest over the callback URL, the sorted
POST fields and the uploaded files' SHA1 sums — external hashing, so the
boolean outcome is a parameter).

The source resolves the fax communication with inverted logic:

    if not fax_id:
        fax_comm = FaxCommunication.objects.filter(pk=fax_id).first()
    else:
        fax_comm = None

so when the tags carry a `fax_id` the lookup is skipped entirely, and when
they do not, `filter(pk=None)` matches nothing (no row has a null pk):
`fax_comm` is `None` either way, and only the `comm_id` fallback can find a
row.  In the failure branch,
`number = PhoneNumber.objects.get_or_create(...)` keeps the whole
`(object, created)` tuple, so `FaxError.objects.create(recipient=number,
...)` receives a tuple and raises `ValueError` on the first recipient. -/
def phaxioCallback (validSignature : Bool) (post : Post) (faxInfo : FaxInfo)
    (now : Int) (db : DB) : Option (HttpResponse × DB) :=
  if !validSignature then some (.forbidden, db)
  else
    let faxId := faxInfo.tagsFaxId
    let commId := faxInfo.tagsCommId
    let faxComm0 : Option FaxCommRec :=
      if !truthyOptStr faxId then none else none
    let faxComm1? : Option (Option FaxCommRec) :=
      if faxComm0.isNone ∧ truthyOptStr commId then
        match pyPk (commId.getD "") with
        | none => none
        | some pk =>
          match findComm db pk with
          | none => none
          | some c => some (faxesLast db c.pk)
      else some faxComm0
    match faxComm1? with
    | none => none
    | some none => some (.resp "OK", db)
    | some (some fc) =>
      let date := match faxInfo.completedAt with
                  | some t => t
                  | none => now
      match postGet post "success" with
      | none => none
      | some success =>
        if success = "true" then
          some (.resp "OK", updateFaxComm db { fc with confirmedDatetime := some date })
        else
          match faxInfo.recipients with
          | [] => some (.resp "OK", db)
          | _ :: _ => none

/-- A fax communication and database used to witness the Phaxio theorem. -/
def faxC4 : FaxCommRec :=
  { pk := 4, communication := 1, sentDatetime := 0,
    confirmedDatetime := none, toNumber := none, faxId := "" }

def dbC4 : DB := { dbC3 with faxComms := [faxC4] }

/-- A trivial instantiation of the external library primitives. -/
def libW : PyLib :=
  { parseaddr := fun s => ("", s), getaddresses := fun _ => [],
    validateEmail := fun _ => true, slugify := fun s => s }

/-- A trivial instantiation of the out-of-snapshot repository code. -/
def extW : ExtCode :=
  { agencyGetUser := fun _ db => (0, db),
    processAttachments := fun _ _ db => db }

/-- A request reachable at `1-234@requests.muckrock.com`. -/
def foiaC1 : FoiaRec := { foiaC6 with mailId := "1-234" }

def dbC1 : DB :=
  { foias := [foiaC1], comms := [], emailComms := [], faxComms := [],
    rawEmails := [], orphanTasks := [], emailAddresses := [], agencies := [],
    agencyEmails := [], whitelistDomains := [], phoneNumbers := [],
    faxErrors := [], nextPk := 7 }

/-- The government sender created by fetching the From header. -/
def feC1 : EmailAddrRec := { pk := 7, email := "clerk@cityhall.gov", name := "" }

def dbC1' : DB := { dbC1 with emailAddresses := [feC1], nextPk := 8 }

/-- A webhook delivery carrying Message-ID `mid1`. -/
def postC10 : Post :=
  [("signature", "s"), ("timestamp", "0"), ("Message-ID", "mid1")]

def stC10 : WebState := { cache := { entries := [] }, db := dbC1 }

def stC10' : WebState := { cache := { entries := [("mid1", 300)] }, db := dbC1 }

/-- A communication whose body contains a BEL control character. -/
def commC8 : FOIACommRec :=
  { commC6 with communication := ['h', Char.ofNat 7, 'i'] }

/-! ## Supporting lemmas -/

theorem mem_of_mem_untilString {body sub : List Char} {ch : Char}
    (h : ch ∈ untilString body sub) : ch ∈ body := by
  unfold untilString at h
  cases hidx : indexOfSublist sub body <;> rw [hidx] at h
  · exact h
  · exact List.mem_of_mem_take h

theorem untilString_length_le (body sub : List Char) :
    (untilString body sub).length ≤ body.length := by
  unfold untilString
  cases indexOfSublist sub body
  · exact le_refl _
  · rw [List.length_take]
    exact min_le_right _ _

theorem presaveCase_mem_and_length (db : DB) (name : String) (sub : List Char)
    (c : FOIACommRec) :
    (presaveCase db name sub c).communication.length ≤ c.communication.length ∧
    ∀ ch ∈ (presaveCase db name sub c).communication, ch ∈ c.communication := by
  unfold presaveCase
  split
  · exact ⟨untilString_length_le _ _, fun ch hch => mem_of_mem_untilString hch⟩
  · exact ⟨le_refl _, fun ch hch => hch⟩

theorem presave_mem_and_length (db : DB) (c : FOIACommRec) :
    (presaveSpecialHandling db c).communication.length ≤ c.communication.length ∧
    ∀ ch ∈ (presaveSpecialHandling db c).communication, ch ∈ c.communication := by
  unfold presaveSpecialHandling
  have h1 := presaveCase_mem_and_length db "Bureau of Prisons" (">>>".data) c
  have h2 := presaveCase_mem_and_length db "Phoenix Police Department"
    (List.replicate 32 '_') (presaveCase db "Bureau of Prisons" (">>>".data) c)
  exact ⟨le_trans h2.1 h1.1, fun ch hch => h1.2 ch (h2.2 ch hch)⟩

theorem updateOrCreateEmail_core (db : DB) (email name : String) :
    (updateOrCreateEmail db email name).2.comms = db.comms ∧
    (updateOrCreateEmail db email name).2.emailComms = db.emailComms ∧
    (updateOrCreateEmail db email name).2.rawEmails = db.rawEmails ∧
    (updateOrCreateEmail db email name).2.orphanTasks = db.orphanTasks := by
  unfold updateOrCreateEmail
  cases db.emailAddresses.find? (fun e => e.email = email) <;>
    exact ⟨rfl, rfl, rfl, rfl⟩

theorem fetch_core (lib : PyLib) (db : DB) (address : String) :
    (fetch lib db address).2.comms = db.comms ∧
    (fetch lib db address).2.emailComms = db.emailComms ∧
    (fetch lib db address).2.rawEmails = db.rawEmails ∧
    (fetch lib db address).2.orphanTasks = db.orphanTasks := by
  unfold fetch
  by_cases h : lib.validateEmail (lib.parseaddr address).2 = true
  · simp only [h, if_true]
    exact updateOrCreateEmail_core db _ _
  · rw [Bool.not_eq_true] at h
    simp only [h]
    exact ⟨rfl, rfl, rfl, rfl⟩

theorem fetchManyLoop_core (valid : String → Bool)
    (l : List (String × String)) :
    ∀ (db : DB) (acc : List EmailAddrRec),
    (fetchManyLoop valid l db acc).2.comms = db.comms ∧
    (fetchManyLoop valid l db acc).2.emailComms = db.emailComms ∧
    (fetchManyLoop valid l db acc).2.rawEmails = db.rawEmails ∧
    (fetchManyLoop valid l db acc).2.orphanTasks = db.orphanTasks := by
  induction l with
  | nil => intro db acc; exact ⟨rfl, rfl, rfl, rfl⟩
  | cons hd tl ih =>
    intro db acc
    rcases hd with ⟨name, email⟩
    unfold fetchManyLoop
    by_cases h : valid email = true
    · simp only [h, if_true]
      have h1 := updateOrCreateEmail_core db (normalizeEmail email) name
      have h2 := ih (updateOrCreateEmail db (normalizeEmail email) name).2
        (acc ++ [(updateOrCreateEmail db (normalizeEmail email) name).1])
      exact ⟨h2.1.trans h1.1, h2.2.1.trans h1.2.1, h2.2.2.1.trans h1.2.2.1,
        h2.2.2.2.trans h1.2.2.2⟩
    · rw [Bool.not_eq_true] at h
      simp only [h]
      exact ih db acc

theorem fetchMany_core (lib : PyLib) (db : DB) (address : String) :
    (fetchMany lib db address).2.comms = db.comms ∧
    (fetchMany lib db address).2.emailComms = db.emailComms ∧
    (fetchMany lib db address).2.rawEmails = db.rawEmails ∧
    (fetchMany lib db address).2.orphanTasks = db.orphanTasks :=
  fetchManyLoop_core lib.validateEmail (lib.getaddresses [address]) db []

theorem parseEmailHeaders_core (lib : PyLib) (db : DB) (post : Post) :
    (parseEmailHeaders lib db post).2.2.2.comms = db.comms ∧
    (parseEmailHeaders lib db post).2.2.2.emailComms = db.emailComms ∧
    (parseEmailHeaders lib db post).2.2.2.rawEmails = db.rawEmails ∧
    (parseEmailHeaders lib db post).2.2.2.orphanTasks = db.orphanTasks := by
  have h1 := fetch_core lib db (postGetD post "From" "")
  have h2 := fetchMany_core lib (fetch lib db (postGetD post "From" "")).2
    (if truthyOptStr (postGet post "To") then (postGet post "To").getD ""
     else postGetD post "to" "")
  have h3 := fetchMany_core lib
    (fetchMany lib (fetch lib db (postGetD post "From" "")).2
      (if truthyOptStr (postGet post "To") then (postGet post "To").getD ""
       else postGetD post "to" "")).2
    (if truthyOptStr (postGet post "Cc") then (postGet post "Cc").getD ""
     else postGetD post "cc" "")
  exact ⟨h3.1.trans (h2.1.trans h1.1), h3.2.1.trans (h2.2.1.trans h1.2.1),
    h3.2.2.1.trans (h2.2.2.1.trans h1.2.2.1),
    h3.2.2.2.trans (h2.2.2.2.trans h1.2.2.2)⟩

/-! ## The claims -/

/-- C1 (behaviour the code actually has): when the mail id names exactly one
request, the sender is allowed to post to it and the request does not block
incoming mail, `_handle_request` answers `HttpResponse('ERROR')` and writes
no `FOIACommunication`, `EmailCommunication`, `RawEmail` or task row: the
warning branch is entered (its guard is `if email_allowed or
foia.block_incoming:`) and `logger.warning('%s: %s', msg, from_)` raises
`NameError` on the unbound `msg` and `from_` before anything is created,
landing in the broad exception handler. -/
theorem handle_request_allowed_sender_errors
    (lib : PyLib) (ext : ExtCode) (post : Post) (files : Files) (now : Int)
    (db0 db1 : DB) (mailId : String) (fe : EmailAddrRec)
    (tos ccs : List EmailAddrRec) (foia : FoiaRec)
    (hpe : parseEmailHeaders lib db0 post = (some fe, tos, ccs, db1))
    (hfind : db1.foias.filter (fun f => f.mailId = mailId) = [foia])
    (hallowed : fe.allowed db1 (some foia) = true)
    (_hblock : foia.blockIncoming = false) :
    handleRequest lib ext post files now db0 mailId
      = some (.resp "ERROR", db1) ∧
    db1.comms = db0.comms ∧ db1.emailComms = db0.emailComms ∧
    db1.rawEmails = db0.rawEmails ∧ db1.orphanTasks = db0.orphanTasks := by
  have hcore := parseEmailHeaders_core lib db0 post
  rw [hpe] at hcore
  refine ⟨?_, hcore⟩
  unfold handleRequest
  rw [hpe]
  simp only [hfind, hallowed, Bool.true_or, if_true]

theorem handle_request_allowed_sender_errors_witness :
    (parseEmailHeaders libW dbC1 [("From", "clerk@cityhall.gov")]
      = (some feC1, [], [], dbC1')) ∧
    (dbC1'.foias.filter (fun f => f.mailId = "1-234") = [foiaC1]) ∧
    (feC1.allowed dbC1' (some foiaC1) = true) ∧
    (foiaC1.blockIncoming = false) ∧
    (handleRequest libW extW [("From", "clerk@cityhall.gov")] [] 0 dbC1 "1-234"
      = some (.resp "ERROR", dbC1')) :=
  ⟨by decide, by decide, by decide, rfl,
   (handle_request_allowed_sender_errors libW extW
      [("From", "clerk@cityhall.gov")] [] 0 dbC1 dbC1' "1-234" feC1 [] []
      foiaC1 (by decide) (by decide) (by decide) rfl).1⟩

/-- C2: a POST to any mailgun webhook view (`route_mailgun`, `bounces`,
`opened`, `delivered` are each wrapped by `mailgun_verify`) whose
`signature` field is not the hex HMAC-SHA256 digest of the POSTed timestamp
concatenated with the POSTed token under `MAILGUN_ACCESS_KEY` receives
`HttpResponseForbidden()` and the state (database, cache) is unchanged:
stated for `mailgun_verify` around an arbitrary wrapped view, and
instantiated for the two views whose bodies are embedded here,
`route_mailgun` and `delivered`. -/
theorem mailgun_bad_signature_forbidden {σ : Type}
    (handler : Post → σ → Option (HttpResponse × σ))
    (lib : PyLib) (ext : ExtCode) (files : Files)
    (hmacSha256 : String → String → String) (key : String) (now : Int)
    (post : Post) (st : σ) (wst : WebState) (db : DB)
    (h : postGetD post "signature" ""
        ≠ hmacSha256 key (postGetD post "timestamp" "" ++ postGetD post "token" "")) :
    mailgunVerify handler hmacSha256 key now post st = some (.forbidden, st) ∧
    routeMailgunView lib ext files hmacSha256 key now post wst
      = some (.forbidden, wst) ∧
    deliveredView hmacSha256 key now post db = some (.forbidden, db) := by
  refine ⟨?_, ?_, ?_⟩ <;>
    · simp only [mailgunVerify, routeMailgunView, deliveredView, pyVerify]
      rw [if_neg h]

theorem mailgun_bad_signature_forbidden_witness :
    (postGetD [("signature", "bad")] "signature" ""
      ≠ (fun (_ _ : String) => "good") "k"
          (postGetD [("signature", "bad")] "timestamp" ""
            ++ postGetD [("signature", "bad")] "token" "")) ∧
    (mailgunVerify (σ := Nat) (fun _ n => some (.resp "OK", n))
      (fun _ _ => "good") "k" 0 [("signature", "bad")] 7
      = some (.forbidden, 7) ∧
     routeMailgunView libW extW [] (fun _ _ => "good") "k" 0
       [("signature", "bad")] stC10 = some (.forbidden, stC10) ∧
     deliveredView (fun _ _ => "good") "k" 0 [("signature", "bad")] dbC3
      = some (.forbidden, dbC3)) :=
  ⟨by decide,
   mailgun_bad_signature_forbidden (fun _ n => some (.resp "OK", n))
     libW extW [] (fun _ _ => "good") "k" 0 [("signature", "bad")] 7 stC10
     dbC3 (by decide)⟩

/-- C3: a `delivered` webhook with a valid signature that identifies an
existing `EmailCommunication` (directly by `email_id`, or as the latest
email of the communication named by `comm_id` — both cases are captured by
`resolveEmailComm`) sets that row's `confirmed_datetime` to the datetime
given by the webhook's `timestamp` field, leaves its other fields and all
other rows unchanged, and the view returns `HttpResponse('OK')`. -/
theorem delivered_sets_confirmed_datetime
    (hmacSha256 : String → String → String) (key : String) (now : Int)
    (post : Post) (db : DB) (tsStr : String) (t : Int) (ec : EmailCommRec)
    (hv : pyVerify hmacSha256 key now post = some true)
    (hts : postGet post "timestamp" = some tsStr)
    (ht : pyInt tsStr = some t)
    (hec : resolveEmailComm post db = some (some ec)) :
    deliveredView hmacSha256 key now post db
      = some (.resp "OK", updateEmailComm db { ec with confirmedDatetime := some t }) ∧
    (∀ e ∈ db.emailComms, e.pk ≠ ec.pk →
      e ∈ (updateEmailComm db { ec with confirmedDatetime := some t }).emailComms) := by
  constructor
  · simp [deliveredView, mailgunVerify, hv, getCommonWebhookParams, hts, ht, hec,
      deliveredHandler]
  · intro e he hne
    simp only [updateEmailComm, List.mem_map]
    exact ⟨e, he, by simp [hne]⟩

theorem delivered_sets_confirmed_datetime_witness :
    (pyVerify (fun _ _ => "s") "k" 0 [("signature", "s"), ("timestamp", "5"), ("email_id", "1")]
      = some true) ∧
    (postGet [("signature", "s"), ("timestamp", "5"), ("email_id", "1")] "timestamp" = some "5") ∧
    (pyInt "5" = some 5) ∧
    (resolveEmailComm [("signature", "s"), ("timestamp", "5"), ("email_id", "1")] dbC3
      = some (some { pk := 1, communication := 1, sentDatetime := 0,
                     confirmedDatetime := none, fromEmail := none,
                     toEmails := [], ccEmails := [] })) ∧
    (deliveredView (fun _ _ => "s") "k" 0
        [("signature", "s"), ("timestamp", "5"), ("email_id", "1")] dbC3
      = some (.resp "OK",
          updateEmailComm dbC3
            { pk := 1, communication := 1, sentDatetime := 0,
              confirmedDatetime := some 5, fromEmail := none,
              toEmails := [], ccEmails := [] })) :=
  ⟨by decide, by decide, by decide, by decide,
   (delivered_sets_confirmed_datetime (fun _ _ => "s") "k" 0
      [("signature", "s"), ("timestamp", "5"), ("email_id", "1")] dbC3 "5" 5
      { pk := 1, communication := 1, sentDatetime := 0,
        confirmedDatetime := none, fromEmail := none,
        toEmails := [], ccEmails := [] }
      (by decide) (by decide) (by decide) (by decide)).1⟩

/-- C4 (counterexample to the claimed behaviour): a Phaxio callback with a
valid signature whose tags carry a `fax_id` naming an existing
`FaxCommunication` and no `comm_id`, and whose `success` field is
`'true'`, returns `HttpResponse('OK')` with the database unchanged — the
inverted `if not fax_id:` guard means the identified fax communication's
`confirmed_datetime` is never set. -/
theorem phaxio_callback_fax_id_ignored (post : Post) (faxInfo : FaxInfo)
    (now : Int) (db : DB) (fid : String) (pk : Nat) (fc : FaxCommRec)
    (hfid : faxInfo.tagsFaxId = some fid) (_hfid2 : fid ≠ "")
    (hcid : faxInfo.tagsCommId = none)
    (_hpk : pyPk fid = some pk)
    (_hfc : findFaxComm db pk = some fc)
    (_hsuccess : postGet post "success" = some "true") :
    phaxioCallback true post faxInfo now db = some (.resp "OK", db) := by
  simp [phaxioCallback, hfid, hcid, truthyOptStr]

theorem phaxio_callback_fax_id_ignored_witness :
    (({ tagsFaxId := some "4", tagsCommId := none, completedAt := none,
        recipients := [] } : FaxInfo).tagsFaxId = some "4") ∧
    ("4" ≠ "") ∧
    (pyPk "4" = some 4) ∧
    (findFaxComm dbC4 4 = some faxC4) ∧
    (postGet [("success", "true")] "success" = some "true") ∧
    phaxioCallback true [("success", "true")]
      { tagsFaxId := some "4", tagsCommId := none, completedAt := none,
        recipients := [] } 0 dbC4 = some (.resp "OK", dbC4) :=
  ⟨rfl, by decide, by decide, by decide, by decide,
   phaxio_callback_fax_id_ignored [("success", "true")]
     { tagsFaxId := some "4", tagsCommId := none, completedAt := none,
       recipients := [] } 0 dbC4 "4" 4 faxC4 rfl (by decide) rfl (by decide)
     (by decide) (by decide)⟩

/-- C5: after `_sent_status(appeal, thanks)`, a thanks message keeps the
status, and a non-thanks message yields `'appealing'` for an appeal,
`'processed'` when the request already has a response communication
(`has_ack`), and `'ack'` otherwise. -/
theorem sent_status_after_sending (db : DB) (f : FoiaRec) (appeal thanks : Bool) :
    (thanks = true → sentStatus db f appeal thanks = f.status) ∧
    (thanks = false → appeal = true → sentStatus db f appeal thanks = "appealing") ∧
    (thanks = false → appeal = false →
      (∃ c ∈ commsOf db f.pk, c.response = true) →
      sentStatus db f appeal thanks = "processed") ∧
    (thanks = false → appeal = false →
      (¬ ∃ c ∈ commsOf db f.pk, c.response = true) →
      sentStatus db f appeal thanks = "ack") := by
  refine ⟨fun ht => ?_, fun ht ha => ?_, fun ht ha hack => ?_, fun ht ha hack => ?_⟩
  · simp [sentStatus, ht]
  · simp [sentStatus, ht, ha]
  · have : f.hasAck db = true := by
      rcases hack with ⟨c, hc, hr⟩
      simp only [FoiaRec.hasAck, List.any_eq_true]
      exact ⟨c, hc, hr⟩
    simp [sentStatus, ht, ha, this]
  · have : f.hasAck db = false := by
      rw [Bool.eq_false_iff]
      intro hcon
      rcases List.any_eq_true.mp hcon with ⟨c, hc, hr⟩
      exact hack ⟨c, hc, hr⟩
    simp [sentStatus, ht, ha, this]

theorem sent_status_after_sending_witness :
    ((false : Bool) = false) ∧
    ((false : Bool) = false) ∧
    (¬ ∃ c ∈ commsOf dbC3 1, c.response = true) ∧
    sentStatus dbC3
      { pk := 1, title := "", slug := "", status := "processed", mailId := "",
        blockIncoming := false, embargo := false, dateEmbargo := none,
        dateProcessing := none, dateUpdated := none, dateDue := none,
        dateFollowup := none, dateEstimate := none, agencyId := none,
        emailId := none, ccEmailPks := [], jurisdiction := none }
      false false = "ack" := by
  refine ⟨rfl, rfl, by simp [commsOf, dbC3], ?_⟩
  exact (sent_status_after_sending dbC3
    { pk := 1, title := "", slug := "", status := "processed", mailId := "",
      blockIncoming := false, embargo := false, dateEmbargo := none,
      dateProcessing := none, dateUpdated := none, dateDue := none,
      dateFollowup := none, dateEstimate := none, agencyId := none,
      emailId := none, ccEmailPks := [], jurisdiction := none }
    false false).2.2.2 rfl rfl (by simp [commsOf, dbC3])

/-- C6: follow-up scheduling is monotone.  When the request has a last
communication, `_update_followup_date` succeeds, the new `date_followup` is
never earlier than a previously set one, and whenever the field actually
changes it equals the later of (last communication date + `_followup_days`)
and the due date (the proposed date itself when no due date is set). -/
theorem update_followup_date_monotone (db : DB) (f : FoiaRec) (today : Int)
    (c : FOIACommRec) (hc : lastComm db f.pk = some c) :
    ∃ f', updateFollowupDate db f today = some f' ∧
      (∀ old, f.dateFollowup = some old →
        ∃ nw, f'.dateFollowup = some nw ∧ old ≤ nw) ∧
      (f'.dateFollowup ≠ f.dateFollowup →
        f'.dateFollowup = some (match f.dateDue with
          | some due => max (dateOfDatetime c.date + followupDays f today) due
          | none => dateOfDatetime c.date + followupDays f today)) := by
  simp only [updateFollowupDate, hc]
  rcases hdd : f.dateDue with _ | due <;> rcases hdf : f.dateFollowup with _ | old <;>
    dsimp only
  · exact ⟨_, rfl, by simp, fun _ => rfl⟩
  · set cand := dateOfDatetime c.date + followupDays f today with hcand
    by_cases h : old < cand
    · refine ⟨{ f with dateFollowup := some cand }, by rw [if_pos h, hdd],
        fun o ho => ?_, fun _ => rfl⟩
      cases ho
      exact ⟨cand, rfl, le_of_lt h⟩
    · refine ⟨f, by rw [if_neg h], fun o ho => ?_, fun hne => absurd hdf hne⟩
      cases ho
      exact ⟨old, hdf, le_refl old⟩
  · set cand := dateOfDatetime c.date + followupDays f today with hcand
    refine ⟨_, rfl, by simp, fun _ => ?_⟩
    show some _ = some _
    by_cases h2 : due > cand
    · rw [if_pos h2, max_eq_right (le_of_lt h2)]
    · rw [if_neg h2, max_eq_left (le_of_not_lt h2)]
  · set cand := dateOfDatetime c.date + followupDays f today with hcand
    set nd := if due > cand then due else cand with hnd
    by_cases h : old < nd
    · refine ⟨{ f with dateFollowup := some nd }, by rw [if_pos h, hdd],
        fun o ho => ?_, fun _ => ?_⟩
      · cases ho
        exact ⟨nd, rfl, le_of_lt h⟩
      · show some nd = some _
        rw [hnd]
        by_cases h2 : due > cand
        · rw [if_pos h2, max_eq_right (le_of_lt h2)]
        · rw [if_neg h2, max_eq_left (le_of_not_lt h2)]
    · refine ⟨f, by rw [if_neg h], fun o ho => ?_, fun hne => absurd hdf hne⟩
      cases ho
      exact ⟨old, hdf, le_refl old⟩

theorem update_followup_date_monotone_witness :
    (lastComm dbC6 foiaC6.pk = some commC6) ∧
    (∃ f', updateFollowupDate dbC6 foiaC6 0 = some f' ∧
      (∀ old, foiaC6.dateFollowup = some old →
        ∃ nw, f'.dateFollowup = some nw ∧ old ≤ nw) ∧
      (f'.dateFollowup ≠ foiaC6.dateFollowup →
        f'.dateFollowup = some (match foiaC6.dateDue with
          | some due => max (dateOfDatetime commC6.date + followupDays foiaC6 0) due
          | none => dateOfDatetime commC6.date + followupDays foiaC6 0))) :=
  ⟨by decide, update_followup_date_monotone dbC6 foiaC6 0 commC6 (by decide)⟩

/-- C7: `FOIARequest.save` maintains the embargo-date invariant for an
embargoed request: in an end status, `date_embargo` is set 30 days from
today when unset and preserved otherwise (in particular it is non-null);
outside the end statuses it is cleared to null. -/
theorem foia_save_embargo_invariant (lib : PyLib) (today : Int) (f : FoiaRec)
    (he : f.embargo = true) :
    (f.status ∈ endStatus →
      (FoiaRec.save lib today f).dateEmbargo = some (f.dateEmbargo.getD (today + 30)) ∧
      (FoiaRec.save lib today f).dateEmbargo ≠ none) ∧
    (f.status ∉ endStatus → (FoiaRec.save lib today f).dateEmbargo = none) := by
  have key : (FoiaRec.save lib today f).dateEmbargo =
      if f.status ∈ endStatus then some (f.dateEmbargo.getD (today + 30))
      else none := by
    unfold FoiaRec.save
    by_cases h2 : f.status ∈ endStatus <;>
      rcases hde : f.dateEmbargo with _ | d <;>
      simp [he, h2, hde] <;> split <;> rfl
  constructor
  · intro hs
    rw [key, if_pos hs]
    exact ⟨rfl, by simp⟩
  · intro hs
    rw [key, if_neg hs]

theorem foia_save_embargo_invariant_witness :
    ({ foiaC6 with embargo := true, status := "done" } : FoiaRec).embargo = true ∧
    ({ foiaC6 with embargo := true, status := "done" } : FoiaRec).status ∈ endStatus ∧
    (FoiaRec.save
        { parseaddr := fun s => ("", s), getaddresses := fun _ => [],
          validateEmail := fun _ => true, slugify := fun s => s }
        0 { foiaC6 with embargo := true, status := "done" }).dateEmbargo
      = some (({ foiaC6 with embargo := true, status := "done" } : FoiaRec).dateEmbargo.getD (0 + 30)) :=
  ⟨rfl, by decide,
   ((foia_save_embargo_invariant
      { parseaddr := fun s => ("", s), getaddresses := fun _ => [],
        validateEmail := fun _ => true, slugify := fun s => s }
      0 { foiaC6 with embargo := true, status := "done" } rfl).1 (by decide)).1⟩

/-- C8: every communication body stored by `FOIACommunication.save` has at
most 150000 characters and contains no ASCII control character other than
tab (9), newline (10) and carriage return (13) — the code points deleted by
the `translate` table are exactly `range(0,9) + range(11,13) + range(14,32)`. -/
theorem foia_communication_save_body_clean (db : DB) (c : FOIACommRec) :
    (savedBody db c).length ≤ 150000 ∧
    ∀ ch ∈ savedBody db c,
      32 ≤ ch.toNat ∨ ch.toNat = 9 ∨ ch.toNat = 10 ∨ ch.toNat = 13 := by
  have hps := presave_mem_and_length db
    { c with communication := (translateRemoveControl c.communication).take 150000 }
  constructor
  · exact le_trans hps.1 (List.length_take_le _ _)
  · intro ch hch
    have h1 : ch ∈ (translateRemoveControl c.communication).take 150000 :=
      hps.2 ch hch
    have h2 : ch ∈ translateRemoveControl c.communication :=
      List.mem_of_mem_take h1
    have h3 := (List.mem_filter.mp h2).2
    rw [Bool.not_eq_true'] at h3
    by_contra hcon
    push_neg at hcon
    have hlt : ch.toNat < 32 := by omega
    have hin : removeControlKeys.contains ch.toNat = true := by
      have : ∀ n, n < 32 → ¬n = 9 → ¬n = 10 → ¬n = 13 →
          removeControlKeys.contains n = true := by decide
      exact this ch.toNat hlt (by omega) (by omega) (by omega)
    rw [hin] at h3
    exact Bool.noConfusion h3

theorem foia_communication_save_body_clean_witness :
    (savedBody dbC1 commC8).length ≤ 150000 ∧
    ('h' ∈ savedBody dbC1 commC8 →
      32 ≤ 'h'.toNat ∨ 'h'.toNat = 9 ∨ 'h'.toNat = 10 ∨ 'h'.toNat = 13) :=
  ⟨(foia_communication_save_body_clean dbC1 commC8).1,
   (foia_communication_save_body_clean dbC1 commC8).2 'h'⟩


/-- C9: mailgun webhook verification also enforces freshness: when the POSTed
timestamp parses to an integer `t` with `t + 300` not greater than the
current time, `_verify` returns `False` and the wrapped view returns
`HttpResponseForbidden` without touching the state — even when the signature
is the correct digest (no hypothesis constrains the signature field). -/
theorem mailgun_stale_timestamp_forbidden {σ : Type}
    (handler : Post → σ → Option (HttpResponse × σ))
    (lib : PyLib) (ext : ExtCode) (files : Files)
    (hmacSha256 : String → String → String) (key : String) (now : Int)
    (post : Post) (st : σ) (wst : WebState) (db : DB) (t : Int)
    (ht : pyInt (postGetD post "timestamp" "") = some t)
    (hstale : t + 300 ≤ now) :
    pyVerify hmacSha256 key now post = some false ∧
    mailgunVerify handler hmacSha256 key now post st = some (.forbidden, st) ∧
    routeMailgunView lib ext files hmacSha256 key now post wst
      = some (.forbidden, wst) ∧
    deliveredView hmacSha256 key now post db = some (.forbidden, db) := by
  have hv : pyVerify hmacSha256 key now post = some false := by
    simp only [pyVerify, ht]
    split
    · simp only [Option.some.injEq, decide_eq_false_iff_not, not_lt]
      omega
    · rfl
  refine ⟨hv, ?_, ?_, ?_⟩ <;>
    simp [mailgunVerify, routeMailgunView, deliveredView, hv]

theorem mailgun_stale_timestamp_forbidden_witness :
    (pyInt (postGetD [("signature", "s"), ("timestamp", "100")] "timestamp" "")
      = some 100) ∧
    ((100 : Int) + 300 ≤ 1000) ∧
    (pyVerify (fun _ _ => "s") "k" 1000 [("signature", "s"), ("timestamp", "100")]
      = some false ∧
     mailgunVerify (σ := Nat) (fun _ n => some (.resp "OK", n))
       (fun _ _ => "s") "k" 1000 [("signature", "s"), ("timestamp", "100")] 3
       = some (.forbidden, 3) ∧
     routeMailgunView libW extW [] (fun _ _ => "s") "k" 1000
       [("signature", "s"), ("timestamp", "100")] stC10
       = some (.forbidden, stC10) ∧
     deliveredView (fun _ _ => "s") "k" 1000
       [("signature", "s"), ("timestamp", "100")] dbC3
       = some (.forbidden, dbC3)) :=
  ⟨by decide, by decide,
   mailgun_stale_timestamp_forbidden (fun _ n => some (.resp "OK", n))
     libW extW [] (fun _ _ => "s") "k" 1000
     [("signature", "s"), ("timestamp", "100")] 3 stC10 dbC3 100
     (by decide) (by decide)⟩

/-- C10: `route_mailgun` processes each inbound message at most once per
caching window.  When a first delivery carrying non-empty Message-ID `m`
(not yet cached) is processed at `now1`, a second valid delivery carrying
the same Message-ID within 300 seconds returns `HttpResponse('OK')` with
the state — database rows and cache alike — exactly as the first call left
it: nothing is created. -/
theorem route_mailgun_deduplicates (lib : PyLib) (ext : ExtCode)
    (files : Files) (hmacSha256 : String → String → String) (key : String)
    (post1 post2 : Post) (m : String) (now1 now2 : Int)
    (st0 st1 : WebState) (r1 : HttpResponse)
    (hm1 : pyOrOptStr (postGet post1 "Message-ID")
      (pyOrOptStr (postGet post1 "Message-Id") (postGet post1 "message-id"))
      = some m)
    (hm2 : pyOrOptStr (postGet post2 "Message-ID")
      (pyOrOptStr (postGet post2 "Message-Id") (postGet post2 "message-id"))
      = some m)
    (hm : m ≠ "")
    (hv1 : pyVerify hmacSha256 key now1 post1 = some true)
    (hv2 : pyVerify hmacSha256 key now2 post2 = some true)
    (hnc : cacheHasValid st0.cache now1 m = false)
    (hcall1 : routeMailgunView lib ext files hmacSha256 key now1 post1 st0
      = some (r1, st1))
    (hwin : now2 < now1 + 300) :
    routeMailgunView lib ext files hmacSha256 key now2 post2 st1
      = some (.resp "OK", st1) := by
  have htr : truthyOptStr (some m) = true := by
    simp [truthyOptStr, hm]
  unfold routeMailgunView mailgunVerify at hcall1 ⊢
  rw [hv1] at hcall1
  rw [hv2]
  unfold routeMailgunInner at hcall1 ⊢
  rw [hm1] at hcall1
  rw [hm2]
  simp only [htr, if_true, Option.getD_some, cacheAdd, hnc, Bool.false_eq_true,
    if_false, Bool.not_true, Bool.not_false] at hcall1
  have hst1 : st1.cache = { entries := (m, now1 + 300) :: st0.cache.entries } := by
    rcases hfold : (lib.getaddresses
        [lowerStr (pyOrStr (postGetD post1 "To" "") (postGetD post1 "to" "")),
         lowerStr (pyOrStr (postGetD post1 "Cc" "") (postGetD post1 "cc" ""))]).foldlM
        (routeLoopStep lib ext files now1 post1) st0.db with _ | db1 <;>
      rw [hfold] at hcall1
    · exact absurd hcall1 (by simp)
    · have hpair := (Option.some.injEq _ _).mp hcall1
      have hsnd := congrArg Prod.snd hpair
      exact (congrArg WebState.cache hsnd).symm
  have hvalid : cacheHasValid st1.cache now2 m = true := by
    rw [hst1]
    simp [cacheHasValid, hwin]
  simp only [htr, if_true, Option.getD_some, cacheAdd, hvalid, Bool.not_false,
    if_true]

theorem route_mailgun_deduplicates_witness :
    (pyOrOptStr (postGet postC10 "Message-ID")
      (pyOrOptStr (postGet postC10 "Message-Id") (postGet postC10 "message-id"))
      = some "mid1") ∧
    ("mid1" ≠ "") ∧
    (pyVerify (fun _ _ => "s") "k" 0 postC10 = some true) ∧
    (pyVerify (fun _ _ => "s") "k" 100 postC10 = some true) ∧
    (cacheHasValid stC10.cache 0 "mid1" = false) ∧
    (routeMailgunView libW extW [] (fun _ _ => "s") "k" 0 postC10 stC10
      = some (.resp "OK", stC10')) ∧
    ((100 : Int) < 0 + 300) ∧
    (routeMailgunView libW extW [] (fun _ _ => "s") "k" 100 postC10 stC10'
      = some (.resp "OK", stC10')) :=
  ⟨by decide, by decide, by decide, by decide, by decide, by decide, by decide,
   route_mailgun_deduplicates libW extW [] (fun _ _ => "s") "k" postC10
     postC10 "mid1" 0 100 stC10 stC10' (.resp "OK") (by decide) (by decide)
     (by decide) (by decide) (by decide) (by decide) (by decide) (by decide)⟩
